import Mathlib

/-!
Verification development for the session/identity core of the
`sem4-cprg-security` repository.

JavaScript strings are embedded as `List Char`; byte buffers as `List Nat`
with bytes understood modulo 256 (hypotheses `b < 256` where relevant);
`null`/`undefined` as `none`.  Node `crypto`, `jsonwebtoken` and `bcrypt`
are external libraries, so their primitives are modelled (each such
definition says so in its doc comment); everything else is translated
directly from the TypeScript sources.
-/

namespace CprgSec

/-! ## Hex encoding (model of Buffer.toString of hex / Buffer.from hex) -/

/-- One lowercase hex digit character for a nibble, as Node emits them
(values ≥ 16 never arise from byte encoding). -/
def hexDigitChar (n : Nat) : Char :=
  if n < 10 then Char.ofNat (48 + n) else Char.ofNat (87 + n)

/-- Modelled from the spec: Node `Buffer.prototype.toString("hex")` —
two lowercase hex digits per byte. -/
def hexEncode : List Nat → List Char
  | [] => []
  | b :: bs => hexDigitChar (b / 16) :: hexDigitChar (b % 16) :: hexEncode bs

/-- Value of a hex digit character, `none` if the character is not a hex digit. -/
def hexCharVal (c : Char) : Option Nat :=
  if 48 ≤ c.toNat ∧ c.toNat ≤ 57 then some (c.toNat - 48)
  else if 97 ≤ c.toNat ∧ c.toNat ≤ 102 then some (c.toNat - 87)
  else if 65 ≤ c.toNat ∧ c.toNat ≤ 70 then some (c.toNat - 55)
  else none

/-- Modelled from the spec: Node `Buffer.from(s, "hex")` — decodes pairs of
hex digits and truncates at the first invalid pair or odd tail. -/
def hexDecodeNode : List Char → List Nat
  | c₁ :: c₂ :: rest =>
    match hexCharVal c₁, hexCharVal c₂ with
    | some h, some l => (16 * h + l) :: hexDecodeNode rest
    | _, _ => []
  | _ => []

/-! ## String split (model of JavaScript String.prototype.split(":")) -/

/-- JavaScript `s.split(":")` on a string embedded as `List Char`.
`"".split(":")` is `[""]`, i.e. `[[]]`. -/
def splitOnColon : List Char → List (List Char)
  | [] => [[]]
  | c :: rest =>
    if c = ':' then [] :: splitOnColon rest
    else
      match splitOnColon rest with
      | [] => [[c]]
      | seg :: segs => (c :: seg) :: segs

/-! ## AES-256-GCM model

Modelled from the spec: the repository calls Node `crypto`
(`createCipheriv`/`createDecipheriv` with `aes-256-gcm`), which is not in
`src/`.  GCM is counter-mode (keystream XOR) encryption with a 128-bit
authentication tag, so the model keeps exactly those interface facts: the
ciphertext is the plaintext XORed bytewise with a keystream determined by
key and nonce (hence length-preserving and self-inverse), and the tag is a
16-byte function of key, nonce and ciphertext. -/

/-- Keystream byte `i` for a given key and 96-bit IV (abstract mixing
function; only determinism and the byte bound matter). -/
def keystreamByte (key iv : List Nat) (i : Nat) : Nat :=
  ((i + 1) * (key.foldl (fun a b => a * 257 + b + 1) 1)
    + (i + 3) * (iv.foldl (fun a b => a * 263 + b + 1) 1)) % 256

/-- Keystream of a given length. -/
def keystream (key iv : List Nat) (n : Nat) : List Nat :=
  (List.range n).map (keystreamByte key iv)

/-- GCM encryption core: plaintext XOR keystream. -/
def gcmEncryptBytes (key iv pt : List Nat) : List Nat :=
  List.zipWith Nat.xor pt (keystream key iv pt.length)

/-- GCM decryption core: ciphertext XOR keystream (same operation). -/
def gcmDecryptBytes (key iv ct : List Nat) : List Nat :=
  List.zipWith Nat.xor ct (keystream key iv ct.length)

/-- 128-bit (16-byte) GCM authentication tag over key, IV and ciphertext. -/
def gcmTag (key iv ct : List Nat) : List Nat :=
  (List.range 16).map (fun i =>
    (ct.foldl (fun a b => a * 31 + b + 7) (keystreamByte key iv (i + 101)) + i) % 256)

/-! ## encrypt / decrypt (server/utils/encryption.ts)

`encrypt` takes the fresh random IV as an explicit argument (the source
draws it from `crypto.randomBytes(12)`), the plaintext as its UTF-8 bytes
(`none` embeds `null`/`undefined`), and returns the envelope string
`ivHex:ctHex:tagHex` (`none` for the null pass-through). -/

def IV_LENGTH : Nat := 12
def AUTH_TAG_LENGTH : Nat := 16

/-- `encrypt` from `server/utils/encryption.ts`. -/
def encrypt (key iv : List Nat) (text : Option (List Nat)) : Option (List Char) :=
  match text with
  | none => none
  | some pt =>
    let ct := gcmEncryptBytes key iv pt
    let tag := gcmTag key iv ct
    some (hexEncode iv ++ ':' :: hexEncode ct ++ ':' :: hexEncode tag)

/-- The distinct internal outcomes of `decrypt`: null input pass-through,
success, the two malformed-envelope failures (logged as
"Invalid format" and "Invalid component lengths or missing parts"), and
the authentication failure (logged as "Data integrity check failed").
All failures return `null` to the caller. -/
inductive DecryptOutcome where
  | nullInput : DecryptOutcome
  | ok : List Nat → DecryptOutcome
  | invalidFormat : DecryptOutcome
  | invalidLengths : DecryptOutcome
  | authFailed : DecryptOutcome
deriving DecidableEq, Repr

/-- `decrypt` from `server/utils/encryption.ts`, with its internal outcome
kept explicit.  The JavaScript falsiness tests `!ivHex` etc. are the
`= []` disjuncts; the thrown tag-mismatch error caught by the
`catch` block is the `authFailed` outcome. -/
def decryptCore (key : List Nat) (encryptedText : Option (List Char)) : DecryptOutcome :=
  match encryptedText with
  | none => .nullInput
  | some s =>
    match splitOnColon s with
    | [ivHex, encryptedHex, tagHex] =>
      if ivHex = [] ∨ encryptedHex = [] ∨ tagHex = []
          ∨ ivHex.length ≠ IV_LENGTH * 2 ∨ tagHex.length ≠ AUTH_TAG_LENGTH * 2 then
        .invalidLengths
      else
        let iv := hexDecodeNode ivHex
        let tag := hexDecodeNode tagHex
        let ct := hexDecodeNode encryptedHex
        if gcmTag key iv ct = tag then .ok (gcmDecryptBytes key iv ct)
        else .authFailed
    | _ => .invalidFormat

/-- The value `decrypt` returns to its caller: the plaintext on success,
`null` on null input and on every failure outcome. -/
def decrypt (key : List Nat) (encryptedText : Option (List Char)) : Option (List Nat) :=
  match decryptCore key encryptedText with
  | .ok pt => some pt
  | _ => none

/-! ## bcrypt model

Modelled from the spec (PasswordVault): `bcrypt` is an external library.
`hash` is a salted one-way digest with the salt embedded in the digest
encoding, and `compare(raw, digest)` succeeds exactly when `digest` was
produced by hashing `raw` (under any salt). -/

/-- A bcrypt digest: the embedded salt together with the hashed input
(kept abstract; only the verification equation matters). -/
structure Digest where
  salt : Nat
  payload : List Char
deriving DecidableEq, Repr

/-- Modelled from the spec: `bcrypt.hash(raw, rounds)` with the per-call
random salt made explicit. -/
def bcryptHash (salt : Nat) (raw : List Char) : Digest := ⟨salt, raw⟩

/-- Modelled from the spec: `bcrypt.compare(raw, digest)`. -/
def bcryptCompare (raw : List Char) (d : Digest) : Bool :=
  decide (d.payload = raw)

/-! ## User model (server/models/User.ts, current schema version)

`passwordReset.token` stores a bcrypt digest of the raw reset token;
the schema defaults (empty token string, null expiry) and `undefined`
both embed as `none`.  `bio` holds the encrypted envelope string. -/

inductive Role where
  | user : Role
  | admin : Role
deriving DecidableEq, Repr

structure PasswordReset where
  token : Option Digest
  expires : Option Nat
deriving DecidableEq, Repr

structure User where
  id : List Char
  githubId : Option (List Char)
  username : List Char
  email : List Char
  password : Digest
  bio : Option (List Char)
  passwordReset : PasswordReset
  role : Role
deriving DecidableEq, Repr

/-- `UserSchema.methods.comparePassword`. -/
def comparePassword (u : User) (password : List Char) : Bool :=
  bcryptCompare password u.password

/-! ## JWT model (jsonwebtoken, external library)

Modelled from the spec (TokenAuthority): a token is a signed claim set
`{id, iat, exp}` whose signature is a MAC over the claims with the shared
secret; `jwt.verify` throws `JsonWebTokenError` on malformed tokens and
signature mismatch and `TokenExpiredError` once `exp` has passed. -/

structure JwtPayload where
  id : List Char
  iat : Nat
  exp : Nat
deriving DecidableEq, Repr

/-- MAC over the claim set with the shared secret (abstract mixing
function; only determinism matters). -/
def jwtMac (secret : List Char) (p : JwtPayload) : Nat :=
  (p.id.foldl (fun a c => a * 131 + c.toNat + 1) 1) * 1000003
    + p.iat * 7919 + p.exp * 104729
    + (secret.foldl (fun a c => a * 137 + c.toNat + 1) 1) * 65537

/-- A token as received on the wire: either a structurally well-formed
signed claim set, or an unparseable string. -/
inductive TokenWire where
  | signed : JwtPayload → Nat → TokenWire
  | garbage : List Char → TokenWire
deriving DecidableEq, Repr

/-- The error taxonomy of `jsonwebtoken` as discriminated by the
middleware (`error.name`). -/
inductive JwtError where
  | jsonWebTokenError : JwtError
  | tokenExpiredError : JwtError
deriving DecidableEq, Repr

/-- Modelled from the spec: `jwt.verify(token, secret)` at clock time
`now` (seconds).  Malformed tokens and signature mismatches raise
`JsonWebTokenError`; a valid signature with `exp ≤ now` raises
`TokenExpiredError`. -/
def jwtVerify (secret : List Char) (now : Nat) (t : TokenWire) :
    Except JwtError JwtPayload :=
  match t with
  | .garbage _ => .error .jsonWebTokenError
  | .signed p sig =>
    if sig ≠ jwtMac secret p then .error .jsonWebTokenError
    else if p.exp ≤ now then .error .tokenExpiredError
    else .ok p

/-- Modelled from the spec: `jwt.sign({id}, secret, {expiresIn})`. -/
def jwtSign (secret : List Char) (userId : List Char) (now lifetime : Nat) : TokenWire :=
  let p : JwtPayload := ⟨userId, now, now + lifetime⟩
  .signed p (jwtMac secret p)

/-! ## generateToken — the two middleware versions in the repository

One version of the auth middleware (and the copy appended to
`encryption.ts`) signs with `expiresIn: "24h"`; the other version — the
one that also defines `checkRole` — signs with `expiresIn: "15m"` while
its trailing comment still reads "Token expires after 24 hours". -/

namespace AuthMiddlewareA

/-- `expiresIn: "24h"` in seconds. -/
def expiresInSeconds : Nat := 24 * 60 * 60

/-- `generateToken` from the `"24h"` middleware version. -/
def generateToken (secret userId : List Char) (now : Nat) : TokenWire :=
  jwtSign secret userId now expiresInSeconds

end AuthMiddlewareA

namespace AuthMiddlewareB

/-- `expiresIn: "15m"` in seconds (source comment claims 24 hours). -/
def expiresInSeconds : Nat := 15 * 60

/-- `generateToken` from the `"15m"` middleware version. -/
def generateToken (secret userId : List Char) (now : Nat) : TokenWire :=
  jwtSign secret userId now expiresInSeconds

end AuthMiddlewareB

/-- Expiry claim of a well-formed token (for stating lifetime facts). -/
def tokenExp : TokenWire → Option Nat
  | .signed p _ => some p.exp
  | .garbage _ => none

/-! ## authenticateJWT (auth middleware)

The middleware reads the cookie token, verifies it, loads the user, and
either proceeds (attaching the user) or responds.  The three
`jwt.verify` rejection causes are discriminated by `error.name` into
different 401 messages. -/

inductive AuthOutcome where
  | respond : Nat → String → AuthOutcome
  | proceed : User → AuthOutcome
deriving DecidableEq, Repr

/-- `authenticateJWT`: `store` is the User collection, `now` the clock,
`jwtSecret` the `JWT_SECRET` environment value, `cookieToken` the
`access_token` cookie. -/
def authenticateJWT (store : List User) (now : Nat) (jwtSecret : Option (List Char))
    (cookieToken : Option TokenWire) : AuthOutcome :=
  match cookieToken with
  | none => .respond 401 "No authorization token provided in cookie"
  | some token =>
    match jwtSecret with
    | none => .respond 500 "Internal server error: JWT secret missing."
    | some secret =>
      match jwtVerify secret now token with
      | .error .tokenExpiredError => .respond 401 "Unauthorized - Token expired"
      | .error .jsonWebTokenError => .respond 401 "Unauthorized - Invalid token signature"
      | .ok decoded =>
        match store.find? (fun u => decide (u.id = decoded.id)) with
        | none => .respond 401 "User not found for provided token"
        | some u => .proceed u

/-! ## Local strategy (server/auth/local.ts)

The passport LocalStrategy verify callback: look the user up by email;
on a missing user fail immediately with the generic message; otherwise
run `comparePassword` and fail with the same generic message on
mismatch.  The second component counts the bcrypt comparisons the call
performs (the timing-relevant observable). -/

inductive LocalAuthOutcome where
  | failure : String → LocalAuthOutcome
  | success : User → LocalAuthOutcome
deriving DecidableEq, Repr

def invalidCredentialsMessage : String := "Incorrect email or password."

/-- The LocalStrategy verify callback, instrumented with the number of
bcrypt verifications executed. -/
def localStrategyVerify (store : List User) (email password : List Char) :
    LocalAuthOutcome × Nat :=
  match store.find? (fun u => decide (u.email = email)) with
  | none => (.failure invalidCredentialsMessage, 0)
  | some u =>
    if comparePassword u password then (.success u, 1)
    else (.failure invalidCredentialsMessage, 1)

/-! ## POST /request-password-reset (server/routes/authenticateRoutes.ts)

The handler body after validation: look up by email; if found, store the
bcrypt hash of a fresh random raw token with a 15-minute expiry and send
the raw token by email; either way answer with the same generic message.
The random raw token and the bcrypt salt are explicit arguments; the
third result component is the list of delivery calls made
(`sendPasswordResetEmail` arguments). -/

def genericResetMessage : String :=
  "If an account with that email exists, a password reset link has been sent."

def requestPasswordReset (now : Nat) (email rawToken : List Char) (salt : Nat)
    (store : List User) : List User × String × List (List Char × List Char) :=
  match store.find? (fun u => decide (u.email = email)) with
  | some u =>
    let hashedToken := bcryptHash salt rawToken
    let expires := now + 15 * 60 * 1000
    (store.map (fun v =>
        if v.id = u.id then { u with passwordReset := ⟨some hashedToken, some expires⟩ }
        else v),
      genericResetMessage, [(u.email, rawToken)])
  | none => (store, genericResetMessage, [])

/-! ## POST /reset-password (server/routes/authenticateRoutes.ts)

The handler body after validation: collect the users with an unexpired
pending challenge, scan them with `bcrypt.compare` until the raw token
matches, and on a match set the new password (hashed by the pre-save
hook, fresh salt explicit) and clear the challenge in the same `save`;
otherwise answer 400 invalid-or-expired. -/

inductive ResetOutcome where
  | success : ResetOutcome
  | invalidOrExpired : ResetOutcome
deriving DecidableEq, Repr

/-- The Mongo candidate filter `passwordReset.expires > now`. -/
def hasUnexpiredChallenge (now : Nat) (u : User) : Bool :=
  match u.passwordReset.expires with
  | some e => decide (now < e)
  | none => false

/-- The loop body test: the challenge token field is set and
`bcrypt.compare(rawToken, storedHash)` succeeds. -/
def challengeMatches (rawToken : List Char) (u : User) : Bool :=
  match u.passwordReset.token with
  | some d => bcryptCompare rawToken d
  | none => false

/-- The single update applied to the matched user: new credential hash
and cleared challenge, persisted by one `save`. -/
def redeemUpdate (salt : Nat) (newPassword : List Char) (u : User) : User :=
  { u with password := bcryptHash salt newPassword, passwordReset := ⟨none, none⟩ }

def resetPassword (now : Nat) (rawToken newPassword : List Char) (salt : Nat)
    (store : List User) : List User × ResetOutcome :=
  let potentialUsers := store.filter (hasUnexpiredChallenge now)
  match potentialUsers.find? (challengeMatches rawToken) with
  | none => (store, .invalidOrExpired)
  | some u =>
    (store.map (fun v => if v.id = u.id then redeemUpdate salt newPassword u else v),
      .success)

/-! ## GitHub strategy verify callback

Lookup by `githubId`; else by profile email, linking the GitHub id onto
the matched record; else create a new user with a random password.  A
profile without an email reaches `user.save()` with the schema-required
`email` missing, so the save raises a validation error
(`done(error)`). -/

inductive FedError where
  | saveValidationFailed : FedError
deriving DecidableEq, Repr

def githubStrategyVerify (store : List User) (profileId : List Char)
    (profileEmail : Option (List Char)) (profileUsername : List Char)
    (freshId randomPassword : List Char) (salt : Nat) :
    List User × Except FedError User :=
  match store.find? (fun u => decide (u.githubId = some profileId)) with
  | some u => (store, .ok u)
  | none =>
    match profileEmail with
    | some email =>
      (match store.find? (fun u => decide (u.email = email)) with
      | some u =>
        let linked := { u with githubId := some profileId }
        (store.map (fun v => if v.id = u.id then linked else v), .ok linked)
      | none =>
        let created : User :=
          ⟨freshId, some profileId, profileUsername, email,
            bcryptHash salt randomPassword, none, ⟨none, none⟩, .user⟩
        (store ++ [created], .ok created))
    | none => (store, .error .saveValidationFailed)

/-! ## UserSchema pre-save bio handling and toJSON transform -/

/-- The bio branch of `UserSchema.pre("save")` when `bio` was modified:
a truthy bio is encrypted (a null result from `encrypt` is stored as
null), a null or empty bio is stored as null without calling `encrypt`.
The second component counts the `encrypt` invocations. -/
def preSaveBio (key iv : List Nat) (bio : Option (List Nat)) :
    Option (List Char) × Nat :=
  match bio with
  | some pt => if pt = [] then (none, 0) else (encrypt key iv (some pt), 1)
  | none => (none, 0)

/-- The shape of a user as serialized by the `toJSON`/`toObject`
transform: `password` and `passwordReset` are deleted (absent from the
type) and the stored bio envelope is replaced by its decryption. -/
structure PublicUser where
  id : List Char
  githubId : Option (List Char)
  username : List Char
  email : List Char
  bio : Option (List Nat)
  role : Role
deriving DecidableEq, Repr

/-- The `toJSON` transform of `UserSchema`.  A falsy (absent or empty)
stored bio is passed through; the empty-string case is represented as
the empty byte list (it cannot arise from the pre-save hook, which
stores null instead). -/
def toJSONTransform (key : List Nat) (u : User) : PublicUser :=
  { id := u.id, githubId := u.githubId, username := u.username, email := u.email,
    bio := match u.bio with
      | none => none
      | some env => if env = [] then some [] else decrypt key (some env),
    role := u.role }

/-! ## GET /session response shape (server/routes/authenticateRoutes.ts)

The handler takes `req.user?._doc || req.user` — the raw document, not
`toObject()`/`toJSON()` — and removes only `password` by destructuring:
`const (braces) password, ...userData (braces) = userObject`.  Everything
else, `passwordReset` included, stays in the response. -/

structure SessionUserData where
  id : List Char
  githubId : Option (List Char)
  username : List Char
  email : List Char
  bio : Option (List Char)
  passwordReset : PasswordReset
  role : Role
deriving DecidableEq, Repr

/-- The `userData` rest object sent by GET /session. -/
def sessionUserData (u : User) : SessionUserData :=
  ⟨u.id, u.githubId, u.username, u.email, u.bio, u.passwordReset, u.role⟩

/-! ## Helper lemmas: hex codec -/

theorem hexDigitChar_ne_colon (n : Nat) (h : n < 16) : hexDigitChar n ≠ ':' := by
  interval_cases n <;> decide

theorem hexCharVal_hexDigitChar (n : Nat) (h : n < 16) :
    hexCharVal (hexDigitChar n) = some n := by
  interval_cases n <;> decide

theorem colon_not_mem_hexEncode (bs : List Nat) (hb : ∀ b ∈ bs, b < 256) :
    ':' ∉ hexEncode bs := by
  induction bs with
  | nil => simp [hexEncode]
  | cons b bs ih =>
    have hb0 : b < 256 := hb b (by simp)
    have h₁ : b / 16 < 16 := Nat.div_lt_of_lt_mul (by omega)
    have h₂ : b % 16 < 16 := Nat.mod_lt _ (by omega)
    simp only [hexEncode, List.mem_cons, not_or]
    refine ⟨fun h => hexDigitChar_ne_colon _ h₁ h.symm,
            fun h => hexDigitChar_ne_colon _ h₂ h.symm,
            ih (fun x hx => hb x (by simp [hx]))⟩

theorem hexEncode_length (bs : List Nat) : (hexEncode bs).length = 2 * bs.length := by
  induction bs with
  | nil => simp [hexEncode]
  | cons b bs ih => simp [hexEncode, ih]; omega

theorem hexDecodeNode_hexEncode (bs : List Nat) (hb : ∀ b ∈ bs, b < 256) :
    hexDecodeNode (hexEncode bs) = bs := by
  induction bs with
  | nil => simp [hexEncode, hexDecodeNode]
  | cons b bs ih =>
    have hb0 : b < 256 := hb b (by simp)
    have h₁ : b / 16 < 16 := Nat.div_lt_of_lt_mul (by omega)
    have h₂ : b % 16 < 16 := Nat.mod_lt _ (by omega)
    simp only [hexEncode, hexDecodeNode,
      hexCharVal_hexDigitChar _ h₁, hexCharVal_hexDigitChar _ h₂]
    rw [ih (fun x hx => hb x (by simp [hx]))]
    congr 1
    omega

/-! ## Helper lemmas: split -/

theorem splitOnColon_no_colon (s : List Char) (h : ':' ∉ s) :
    splitOnColon s = [s] := by
  induction s with
  | nil => rfl
  | cons c rest ih =>
    have hc : ¬ c = ':' := fun hc => h (by simp [hc])
    have hr := ih (fun hm => h (by simp [hm]))
    simp only [splitOnColon, if_neg hc, hr]

theorem splitOnColon_append (a rest : List Char) (h : ':' ∉ a) :
    splitOnColon (a ++ ':' :: rest) = a :: splitOnColon rest := by
  induction a with
  | nil => simp [splitOnColon]
  | cons c a ih =>
    have hc : ¬ c = ':' := fun hc => h (by simp [hc])
    have hr := ih (fun hm => h (by simp [hm]))
    simp only [List.cons_append, splitOnColon, if_neg hc, List.append_eq, hr]

/-! ## Helper lemmas: GCM model -/

theorem keystream_length (key iv : List Nat) (n : Nat) :
    (keystream key iv n).length = n := by
  simp [keystream]

theorem keystreamByte_lt (key iv : List Nat) (i : Nat) :
    keystreamByte key iv i < 256 :=
  Nat.mod_lt _ (by omega)

theorem zipWith_xor_cancel (pt ks : List Nat) (h : pt.length = ks.length) :
    List.zipWith Nat.xor (List.zipWith Nat.xor pt ks) ks = pt := by
  induction pt generalizing ks with
  | nil => simp
  | cons p pt ih =>
    cases ks with
    | nil => simp at h
    | cons k ks =>
      simp only [List.zipWith_cons_cons, List.cons.injEq]
      refine ⟨?_, ih ks (by simpa using h)⟩
      show p ^^^ k ^^^ k = p
      exact Nat.xor_cancel_right k p

theorem gcmEncryptBytes_length (key iv pt : List Nat) :
    (gcmEncryptBytes key iv pt).length = pt.length := by
  simp [gcmEncryptBytes, keystream_length]

theorem gcmDecrypt_gcmEncrypt (key iv pt : List Nat) :
    gcmDecryptBytes key iv (gcmEncryptBytes key iv pt) = pt := by
  unfold gcmDecryptBytes
  rw [gcmEncryptBytes_length]
  exact zipWith_xor_cancel pt (keystream key iv pt.length)
    (by rw [keystream_length])

theorem keystream_bytes_lt (key iv : List Nat) (n : Nat) :
    ∀ b ∈ keystream key iv n, b < 256 := by
  intro b hb
  simp only [keystream, List.mem_map] at hb
  obtain ⟨i, _, hi⟩ := hb
  exact hi ▸ keystreamByte_lt key iv i

theorem zipWith_xor_bytes_lt (l₁ l₂ : List Nat)
    (h₁ : ∀ b ∈ l₁, b < 256) (h₂ : ∀ b ∈ l₂, b < 256) :
    ∀ b ∈ List.zipWith Nat.xor l₁ l₂, b < 256 := by
  induction l₁ generalizing l₂ with
  | nil => simp
  | cons p l₁ ih =>
    cases l₂ with
    | nil => simp
    | cons k l₂ =>
      intro b hb
      simp only [List.zipWith_cons_cons, List.mem_cons] at hb
      rcases hb with hb | hb
      · subst hb
        have hp : p < 2 ^ 8 := by simpa using h₁ p (by simp)
        have hk : k < 2 ^ 8 := by simpa using h₂ k (by simp)
        simpa using Nat.xor_lt_two_pow hp hk
      · exact ih l₂ (fun x hx => h₁ x (by simp [hx]))
          (fun x hx => h₂ x (by simp [hx])) b hb

theorem gcmEncryptBytes_bytes_lt (key iv pt : List Nat) (hpt : ∀ b ∈ pt, b < 256) :
    ∀ b ∈ gcmEncryptBytes key iv pt, b < 256 :=
  zipWith_xor_bytes_lt pt (keystream key iv pt.length) hpt
    (keystream_bytes_lt key iv pt.length)

theorem gcmTag_length (key iv ct : List Nat) : (gcmTag key iv ct).length = 16 := by
  simp [gcmTag]

theorem gcmTag_bytes_lt (key iv ct : List Nat) : ∀ b ∈ gcmTag key iv ct, b < 256 := by
  intro b hb
  simp only [gcmTag, List.mem_map] at hb
  obtain ⟨i, _, hi⟩ := hb
  exact hi ▸ Nat.mod_lt _ (by omega)

/-! ## Claim C1 -/

/-- Sample 32-byte key for concrete evaluations. -/
def sampleKey : List Nat := List.range 32

/-- Sample 12-byte IV for concrete evaluations. -/
def sampleIV : List Nat := List.range 12

/-- C1 (amended): for every NONEMPTY plaintext, decrypting under the same
key the envelope produced by `encrypt` returns exactly the plaintext.
The unamended claim (every plaintext, the empty string included) is
refuted by `c1_decrypt_encrypt_empty_counterexample`: the envelope of the
empty plaintext has an empty ciphertext segment, which the falsy
`!encryptedHex` guard in `decrypt` rejects, returning null. -/
theorem c1_encrypt_decrypt_roundtrip (key iv pt : List Nat)
    (hiv : iv.length = 12) (hivb : ∀ b ∈ iv, b < 256)
    (hptb : ∀ b ∈ pt, b < 256) (hne : pt ≠ []) :
    decrypt key (encrypt key iv (some pt)) = some pt := by
  have hct := gcmEncryptBytes_bytes_lt key iv pt hptb
  have htg := gcmTag_bytes_lt key iv (gcmEncryptBytes key iv pt)
  have hsplit : splitOnColon
      (hexEncode iv ++ ':' :: hexEncode (gcmEncryptBytes key iv pt)
        ++ ':' :: hexEncode (gcmTag key iv (gcmEncryptBytes key iv pt)))
      = [hexEncode iv, hexEncode (gcmEncryptBytes key iv pt),
          hexEncode (gcmTag key iv (gcmEncryptBytes key iv pt))] := by
    rw [List.append_assoc, List.cons_append,
        splitOnColon_append _ _ (colon_not_mem_hexEncode iv hivb),
        splitOnColon_append _ _ (colon_not_mem_hexEncode _ hct),
        splitOnColon_no_colon _ (colon_not_mem_hexEncode _ htg)]
  have hivlen : (hexEncode iv).length = 24 := by rw [hexEncode_length, hiv]
  have htglen : (hexEncode (gcmTag key iv (gcmEncryptBytes key iv pt))).length = 32 := by
    rw [hexEncode_length, gcmTag_length]
  have hivne : hexEncode iv ≠ [] := by
    intro h; rw [h] at hivlen; simp at hivlen
  have htgne : hexEncode (gcmTag key iv (gcmEncryptBytes key iv pt)) ≠ [] := by
    intro h; rw [h] at htglen; simp at htglen
  have hctne : hexEncode (gcmEncryptBytes key iv pt) ≠ [] := by
    intro h
    have h2 := hexEncode_length (gcmEncryptBytes key iv pt)
    rw [h, gcmEncryptBytes_length] at h2
    have h3 : pt.length = 0 := by simpa using h2.symm
    exact hne (List.length_eq_zero.mp h3)
  simp only [encrypt, decrypt, decryptCore, hsplit]
  rw [if_neg (by
    simp [hivne, hctne, htgne, hivlen, htglen, IV_LENGTH, AUTH_TAG_LENGTH])]
  rw [hexDecodeNode_hexEncode iv hivb, hexDecodeNode_hexEncode _ hct,
      hexDecodeNode_hexEncode _ htg]
  rw [if_pos rfl, gcmDecrypt_gcmEncrypt]

/-- C1 witness: concrete roundtrip through the exported theorem. -/
theorem c1_encrypt_decrypt_roundtrip_witness :
    decrypt sampleKey (encrypt sampleKey sampleIV (some [104, 105])) = some [104, 105] :=
  c1_encrypt_decrypt_roundtrip sampleKey sampleIV [104, 105]
    (by decide) (by decide) (by decide) (by decide)

/-- C1 counterexample: at the empty plaintext, `decrypt` of the envelope
produced by `encrypt` returns null, not the plaintext, so the claim as
stated (for every plaintext string) is false. -/
theorem c1_decrypt_encrypt_empty_counterexample :
    decrypt sampleKey (encrypt sampleKey sampleIV (some [])) ≠ some [] := by
  decide

/-! ## Claim C2 -/

/-- C2: a successful `POST /reset-password` replaces the matched user
record in one update that both sets the new credential hash and clears
the reset challenge, and — provided the raw token matches at most one
stored challenge, as the 256-bit random generation guarantees — a second
redemption with the same raw token returns invalid-or-expired at any
later (or any) clock time. -/
theorem c2_redeem_single_use (now now2 : Nat) (raw pw pw2 : List Char)
    (salt salt2 : Nat) (store store2 : List User)
    (huniq : ∀ v w, v ∈ store → w ∈ store → challengeMatches raw v = true →
      challengeMatches raw w = true → v.id = w.id)
    (h : resetPassword now raw pw salt store = (store2, .success)) :
    (∃ u ∈ store, challengeMatches raw u = true ∧ hasUnexpiredChallenge now u = true ∧
        store2 = store.map (fun v => if v.id = u.id then redeemUpdate salt pw u else v)) ∧
    resetPassword now2 raw pw2 salt2 store2 = (store2, .invalidOrExpired) := by
  cases heq : (store.filter (hasUnexpiredChallenge now)).find? (challengeMatches raw) with
  | none =>
    simp only [resetPassword, heq] at h
    simp at h
  | some u =>
    simp only [resetPassword, heq] at h
    simp only [Prod.mk.injEq] at h
    obtain ⟨hstore2, -⟩ := h
    have humem := List.mem_of_find?_eq_some heq
    rw [List.mem_filter] at humem
    obtain ⟨humem, hunexp⟩ := humem
    have humatch : challengeMatches raw u = true := List.find?_some heq
    refine ⟨⟨u, humem, humatch, hunexp, hstore2.symm⟩, ?_⟩
    have hnone : (store2.filter (hasUnexpiredChallenge now2)).find? (challengeMatches raw)
        = none := by
      rw [List.find?_eq_none]
      intro x hx
      rw [List.mem_filter] at hx
      obtain ⟨hx, -⟩ := hx
      rw [← hstore2, List.mem_map] at hx
      obtain ⟨v, hv, hfv⟩ := hx
      by_cases hid : v.id = u.id
      · rw [if_pos hid] at hfv
        subst hfv
        simp [challengeMatches, redeemUpdate]
      · rw [if_neg hid] at hfv
        subst hfv
        intro hmatch
        exact hid (huniq v u hv humem hmatch humatch)
    simp only [resetPassword, hnone]

/-- Concrete user with a pending reset challenge, for the C2 witness. -/
def c2user : User :=
  ⟨['u', '1'], none, ['a'], ['a', '@', 'x'], ⟨0, ['p', 'w']⟩, none,
    ⟨some ⟨3, ['t', 'k']⟩, some 100⟩, .user⟩

/-- The C2 user after its successful redemption. -/
def c2userAfter : User := redeemUpdate 7 ['n', 'p'] c2user

/-- C2 witness: after a concrete successful redemption, a second attempt
with the same raw token is rejected. -/
theorem c2_redeem_single_use_witness :
    resetPassword 60 ['t', 'k'] ['n', '2'] 9 [c2userAfter]
      = ([c2userAfter], .invalidOrExpired) := by
  have huniq : ∀ v w, v ∈ [c2user] → w ∈ [c2user] →
      challengeMatches ['t', 'k'] v = true → challengeMatches ['t', 'k'] w = true →
      v.id = w.id := by
    intro v w hv hw _ _
    rw [List.mem_singleton] at hv hw
    subst hv
    subst hw
    rfl
  exact (c2_redeem_single_use 50 60 ['t', 'k'] ['n', 'p'] ['n', '2'] 7 9
    [c2user] [c2userAfter] huniq (by decide)).2

/-! ## Claim C3 -/

/-- C3 counterexample: an expired token and a signature-mismatched token
are both rejected, but the middleware reports different response bodies
("Unauthorized - Token expired" versus "Unauthorized - Invalid token
signature"), so the outcome reported to the end user is not identical
across rejection causes as the claim states. -/
theorem c3_distinct_messages_counterexample :
    authenticateJWT [] 20 (some ['s']) (some (jwtSign ['s'] ['u'] 0 10)) ≠
    authenticateJWT [] 20 (some ['s']) (some (.signed ⟨['u'], 0, 100⟩ 0)) := by
  decide

/-- C3 (amended): every token rejected by `jwt.verify` — signature
mismatch, expiry, or unparseable payload — yields an HTTP 401 response,
but the response message varies with the rejection cause rather than
being one identical generic outcome. -/
theorem c3_rejections_all_401 (store : List User) (now : Nat) (secret : List Char)
    (t : TokenWire) (e : JwtError) (h : jwtVerify secret now t = .error e) :
    ∃ m, authenticateJWT store now (some secret) (some t) = .respond 401 m := by
  simp only [authenticateJWT]
  rw [h]
  cases e
  · exact ⟨_, rfl⟩
  · exact ⟨_, rfl⟩

/-- C3 witness: the 401 outcome at a concrete expired token. -/
theorem c3_rejections_all_401_witness :
    ∃ m, authenticateJWT [] 20 (some ['s']) (some (jwtSign ['s'] ['u'] 0 10))
      = .respond 401 m :=
  c3_rejections_all_401 [] 20 ['s'] (jwtSign ['s'] ['u'] 0 10) .tokenExpiredError (by rfl)

/-! ## Claim C4 -/

/-- C4: code bug — the repository has two live `generateToken`
definitions signing with different hardcoded lifetimes: one uses
`expiresIn: "24h"`, the other `expiresIn: "15m"` while its own comment
still says "Token expires after 24 hours".  There is no single
authoritative session-lifetime constant shared by every issuance call
site. -/
theorem c4_generateToken_lifetime_mismatch :
    tokenExp (AuthMiddlewareA.generateToken ['s'] ['u'] 0) = some (24 * 60 * 60) ∧
    tokenExp (AuthMiddlewareB.generateToken ['s'] ['u'] 0) = some (15 * 60) ∧
    AuthMiddlewareA.expiresInSeconds ≠ AuthMiddlewareB.expiresInSeconds := by
  decide

/-! ## Claim C5 -/

/-- Concrete registered user (email "b"), for the C5 theorems. -/
def c5other : User :=
  ⟨['u', '2'], none, ['b'], ['b'], ⟨0, ['p', 'w']⟩, none, ⟨none, none⟩, .user⟩

/-- C5 counterexample: when no identity has the requested email, the
local strategy returns before any bcrypt verification (zero comparisons),
while a wrong password against an existing identity performs one; the
claim that a hash verification executes on both failure paths is false at
this concrete store. -/
theorem c5_no_dummy_verify_counterexample :
    (localStrategyVerify [c5other] ['a'] ['p', 'w']).2 = 0 ∧
    (localStrategyVerify [c5other] ['b'] ['x', 'x']).2 = 1 := by
  decide

/-- C5 (amended): both failure paths of the local strategy return the
same generic invalid-credentials message, but no dummy hash verification
runs on the unknown-email path — it performs zero bcrypt comparisons,
against one on the wrong-password path — leaving a timing signal. -/
theorem c5_uniform_failure_message (store : List User) (email password : List Char) :
    ((∀ u ∈ store, u.email ≠ email) →
      localStrategyVerify store email password = (.failure invalidCredentialsMessage, 0)) ∧
    (∀ u, store.find? (fun v => decide (v.email = email)) = some u →
      comparePassword u password = false →
      localStrategyVerify store email password = (.failure invalidCredentialsMessage, 1)) := by
  constructor
  · intro h
    have hnone : store.find? (fun v => decide (v.email = email)) = none := by
      rw [List.find?_eq_none]
      intro x hx
      simpa using h x hx
    simp [localStrategyVerify, hnone]
  · intro u hu hcmp
    simp [localStrategyVerify, hu, hcmp]

/-- C5 witness: the amended statement at a concrete store. -/
theorem c5_uniform_failure_message_witness :
    localStrategyVerify [c5other] ['a'] ['p', 'w']
      = (.failure invalidCredentialsMessage, 0) ∧
    localStrategyVerify [c5other] ['b'] ['x', 'x']
      = (.failure invalidCredentialsMessage, 1) := by
  refine ⟨(c5_uniform_failure_message [c5other] ['a'] ['p', 'w']).1 ?_,
    (c5_uniform_failure_message [c5other] ['b'] ['x', 'x']).2 c5other ?_ ?_⟩
  · intro u hu
    rw [List.mem_singleton] at hu
    subst hu
    decide
  · decide
  · decide

/-! ## Claim C6 -/

/-- C6: `POST /request-password-reset` answers with the same generic
success message for every email; when no identity has the email it
neither mutates the store nor calls the mailer; when one does, it stores
the bcrypt hash of the raw token with a 15-minute expiry on that identity
and hands the raw token to the mailer. -/
theorem c6_requestReset_enumeration_safe (now : Nat) (email raw : List Char)
    (salt : Nat) (store : List User) :
    ((requestPasswordReset now email raw salt store).2.1 = genericResetMessage) ∧
    ((∀ u ∈ store, u.email ≠ email) →
      (requestPasswordReset now email raw salt store).1 = store ∧
      (requestPasswordReset now email raw salt store).2.2 = []) ∧
    (∀ u, u ∈ store → u.email = email →
      (requestPasswordReset now email raw salt store).2.2 = [(email, raw)] ∧
      ∃ w ∈ (requestPasswordReset now email raw salt store).1,
        w.passwordReset = ⟨some (bcryptHash salt raw), some (now + 15 * 60 * 1000)⟩) := by
  refine ⟨?_, ?_, ?_⟩
  · cases hfind : store.find? (fun u => decide (u.email = email)) with
    | none => simp [requestPasswordReset, hfind]
    | some u => simp [requestPasswordReset, hfind]
  · intro h
    have hnone : store.find? (fun u => decide (u.email = email)) = none := by
      rw [List.find?_eq_none]
      intro x hx
      simpa using h x hx
    simp [requestPasswordReset, hnone]
  · intro u hu hemail
    cases hfind : store.find? (fun v => decide (v.email = email)) with
    | none =>
      rw [List.find?_eq_none] at hfind
      exact absurd (by simpa using hemail) (hfind u hu)
    | some u2 =>
      have hu2email : u2.email = email := by simpa using List.find?_some hfind
      have hu2mem : u2 ∈ store := List.mem_of_find?_eq_some hfind
      constructor
      · simp [requestPasswordReset, hfind, hu2email]
      · refine ⟨{ u2 with passwordReset :=
          ⟨some (bcryptHash salt raw), some (now + 15 * 60 * 1000)⟩ }, ?_, rfl⟩
        simp only [requestPasswordReset, hfind]
        rw [List.mem_map]
        exact ⟨u2, hu2mem, by rw [if_pos rfl]⟩

/-- Concrete registered user (email "e6"), for the C6 witness. -/
def c6user : User :=
  ⟨['u', '6'], none, ['n'], ['e', '6'], ⟨0, ['p']⟩, none, ⟨none, none⟩, .user⟩

/-- C6 witness: the generic message, the no-mutation branch, and the
delivery branch at concrete inputs. -/
theorem c6_requestReset_enumeration_safe_witness :
    (requestPasswordReset 0 ['e', '6'] ['r', 't'] 5 [c6user]).2.1 = genericResetMessage ∧
    (requestPasswordReset 0 ['x'] ['r', 't'] 5 [c6user]).1 = [c6user] ∧
    (requestPasswordReset 0 ['e', '6'] ['r', 't'] 5 [c6user]).2.2
      = [(['e', '6'], ['r', 't'])] := by
  refine ⟨(c6_requestReset_enumeration_safe 0 ['e', '6'] ['r', 't'] 5 [c6user]).1,
    ((c6_requestReset_enumeration_safe 0 ['x'] ['r', 't'] 5 [c6user]).2.1 ?_).1,
    ((c6_requestReset_enumeration_safe 0 ['e', '6'] ['r', 't'] 5 [c6user]).2.2
      c6user ?_ rfl).1⟩
  · intro u hu
    rw [List.mem_singleton] at hu
    subst hu
    decide
  · simp

/-! ## Claim C7 -/

theorem find?_map_replace (p : User → Bool) (orig linked : User) (hl : p linked = true) :
    ∀ l : List User, l.find? p = none → orig ∈ l →
      (l.map (fun v => if v.id = orig.id then linked else v)).find? p = some linked := by
  intro l
  induction l with
  | nil => simp
  | cons a l ih =>
    intro hnone hmem
    have hpa : p a = false := by
      cases hpa : p a
      · rfl
      · rw [List.find?_cons, hpa] at hnone
        exact absurd hnone (by simp)
    have htail : l.find? p = none := by
      rw [List.find?_cons, hpa] at hnone
      exact hnone
    by_cases hid : a.id = orig.id
    · simp only [List.map_cons, if_pos hid, List.find?_cons, hl]
    · have hmem2 : orig ∈ l := by
        rcases List.mem_cons.mp hmem with hoa | hol
        · exact absurd (hoa ▸ rfl) hid
        · exact hol
      simp only [List.map_cons, if_neg hid, List.find?_cons, hpa]
      exact ih htail hmem2

/-- C7: the GitHub strategy verify callback is idempotent in the external
id — whenever a first call succeeds (finding, linking, or creating a
record), a second call with the same GitHub profile id leaves the store
unchanged and resolves, through the githubId-first lookup, to a user with
the same identity id. -/
theorem c7_resolveFederated_idempotent (store store2 : List User) (pid : List Char)
    (em em2 : Option (List Char)) (un un2 fid fid2 rpw rpw2 : List Char)
    (salt salt2 : Nat) (u : User)
    (h : githubStrategyVerify store pid em un fid rpw salt = (store2, .ok u)) :
    ∃ w, githubStrategyVerify store2 pid em2 un2 fid2 rpw2 salt2 = (store2, .ok w) ∧
      w.id = u.id := by
  cases h1 : store.find? (fun v => decide (v.githubId = some pid)) with
  | some u1 =>
    simp only [githubStrategyVerify, h1, Prod.mk.injEq] at h
    obtain ⟨hstore, hu⟩ := h
    refine ⟨u1, ?_, by rw [← Except.ok.inj hu]⟩
    subst hstore
    simp only [githubStrategyVerify, h1]
  | none =>
    cases em with
    | none => simp [githubStrategyVerify, h1] at h
    | some email =>
      cases h2 : store.find? (fun v => decide (v.email = email)) with
      | some u2 =>
        simp only [githubStrategyVerify, h1, h2, Prod.mk.injEq] at h
        obtain ⟨hstore, hu⟩ := h
        have hlinked : (fun v => decide (v.githubId = some pid))
            ({ u2 with githubId := some pid } : User) = true := by simp
        have hfind := find?_map_replace _ u2 { u2 with githubId := some pid } hlinked
          store h1 (List.mem_of_find?_eq_some h2)
        refine ⟨{ u2 with githubId := some pid }, ?_, by rw [← Except.ok.inj hu]⟩
        subst hstore
        simp only [githubStrategyVerify, hfind]
      | none =>
        simp only [githubStrategyVerify, h1, h2, Prod.mk.injEq] at h
        obtain ⟨hstore, hu⟩ := h
        have hfind : List.find? (fun v => decide (v.githubId = some pid))
            (store ++ [(⟨fid, some pid, un, email, bcryptHash salt rpw, none,
              ⟨none, none⟩, .user⟩ : User)])
            = some (⟨fid, some pid, un, email, bcryptHash salt rpw, none,
                ⟨none, none⟩, .user⟩ : User) := by
          rw [List.find?_append, h1]
          simp
        refine ⟨(⟨fid, some pid, un, email, bcryptHash salt rpw, none,
          ⟨none, none⟩, .user⟩ : User), ?_, by rw [← Except.ok.inj hu]⟩
        subst hstore
        simp only [githubStrategyVerify, hfind]

/-- The user the C7 witness first call creates. -/
def c7created : User :=
  ⟨['i', '7'], some ['g', '1'], ['n'], ['e'], bcryptHash 3 ['r', 'p'], none,
    ⟨none, none⟩, .user⟩

/-- C7 witness: a second call after a concrete creating call resolves to
the same identity id without touching the store. -/
theorem c7_resolveFederated_idempotent_witness :
    ∃ w, githubStrategyVerify [c7created] ['g', '1'] none ['m'] ['i', '8'] ['q'] 4
      = ([c7created], .ok w) ∧ w.id = ['i', '7'] := by
  obtain ⟨w, hw, hid⟩ := c7_resolveFederated_idempotent [] [c7created] ['g', '1']
    (some ['e']) none ['n'] ['m'] ['i', '7'] ['i', '8'] ['r', 'p'] ['q'] 3 4
    c7created (by rfl)
  exact ⟨w, hw, hid.trans rfl⟩

/-! ## Claim C8 -/

/-- C8: `encrypt(null)` passes through as null, and an empty bio value is
treated as absent at the persistence layer: the pre-save hook stores null
for a null or empty-string bio without invoking `encrypt` (zero `encrypt`
calls), and encrypts exactly the truthy (nonempty) values. -/
theorem c8_empty_treated_as_absent :
    (∀ key iv : List Nat, encrypt key iv none = none) ∧
    (∀ key iv : List Nat, preSaveBio key iv none = (none, 0)) ∧
    (∀ key iv : List Nat, preSaveBio key iv (some []) = (none, 0)) ∧
    (∀ (key iv pt : List Nat), pt ≠ [] →
      preSaveBio key iv (some pt) = (encrypt key iv (some pt), 1)) := by
  refine ⟨fun _ _ => rfl, fun _ _ => rfl, fun _ _ => rfl, fun key iv pt h => ?_⟩
  simp [preSaveBio, h]

/-- C8 witness: the nonempty-bio branch at a concrete plaintext. -/
theorem c8_empty_treated_as_absent_witness :
    preSaveBio sampleKey sampleIV (some [104]) =
      (encrypt sampleKey sampleIV (some [104]), 1) :=
  c8_empty_treated_as_absent.2.2.2 sampleKey sampleIV [104] (by decide)

/-! ## Claim C9 -/

/-- C9: `decrypt` maps every malformed envelope (wrong segment count,
wrong segment lengths) to the corrupt-data outcomes and a tag mismatch to
the distinct authentication-failed outcome — all returned as null to the
caller rather than raised — and the `toJSON` read path degrades a field
whose decryption fails to null instead of crashing. -/
theorem c9_decrypt_failure_outcomes (key : List Nat) (s : List Char)
    (u : User) (env : List Char) :
    ((splitOnColon s).length ≠ 3 →
      decryptCore key (some s) = .invalidFormat ∧ decrypt key (some s) = none) ∧
    (∀ ivHex encHex tagHex, splitOnColon s = [ivHex, encHex, tagHex] →
      (ivHex = [] ∨ encHex = [] ∨ tagHex = [] ∨ ivHex.length ≠ IV_LENGTH * 2
        ∨ tagHex.length ≠ AUTH_TAG_LENGTH * 2) →
      decryptCore key (some s) = .invalidLengths ∧ decrypt key (some s) = none) ∧
    (∀ ivHex encHex tagHex, splitOnColon s = [ivHex, encHex, tagHex] →
      ¬(ivHex = [] ∨ encHex = [] ∨ tagHex = [] ∨ ivHex.length ≠ IV_LENGTH * 2
        ∨ tagHex.length ≠ AUTH_TAG_LENGTH * 2) →
      gcmTag key (hexDecodeNode ivHex) (hexDecodeNode encHex) ≠ hexDecodeNode tagHex →
      decryptCore key (some s) = .authFailed ∧ decrypt key (some s) = none) ∧
    (DecryptOutcome.invalidFormat ≠ DecryptOutcome.authFailed ∧
      DecryptOutcome.invalidLengths ≠ DecryptOutcome.authFailed) ∧
    (u.bio = some env → env ≠ [] → decrypt key (some env) = none →
      (toJSONTransform key u).bio = none) := by
  refine ⟨?_, ?_, ?_, by decide, ?_⟩
  · intro hlen
    rcases hs : splitOnColon s with _ | ⟨a, _ | ⟨b, _ | ⟨c, _ | d⟩⟩⟩ <;>
      first
        | (exact absurd (by rw [hs]; rfl) hlen)
        | (exact ⟨by simp [decryptCore, hs], by simp [decrypt, decryptCore, hs]⟩)
  · intro ivHex encHex tagHex hs hcond
    constructor
    · simp only [decryptCore, hs]
      rw [if_pos hcond]
    · simp only [decrypt, decryptCore, hs]
      rw [if_pos hcond]
  · intro ivHex encHex tagHex hs hcond htag
    constructor
    · simp only [decryptCore, hs]
      rw [if_neg hcond, if_neg htag]
    · simp only [decrypt, decryptCore, hs]
      rw [if_neg hcond, if_neg htag]
  · intro hbio hne hdec
    simp only [toJSONTransform, hbio]
    rw [if_neg hne, hdec]

/-- A one-segment garbage envelope. -/
def c9badFormat : List Char := ['a', 'b']

/-- A three-segment envelope with wrong segment lengths. -/
def c9badLengths : List Char := ['a', ':', 'b', ':', 'c']

/-- A well-formed envelope whose tag does not authenticate under
`sampleKey`. -/
def c9badTag : List Char :=
  List.replicate 24 '0' ++ ':' :: 'a' :: 'b' :: ':' :: List.replicate 32 '0'

/-- Concrete user whose stored bio envelope is corrupt. -/
def c9user : User :=
  ⟨['u', '9'], none, ['n'], ['e', '9'], ⟨0, ['p']⟩, some c9badFormat,
    ⟨none, none⟩, .user⟩

/-- C9 witness: the three failure outcomes and the degraded read path at
concrete envelopes. -/
theorem c9_decrypt_failure_outcomes_witness :
    decryptCore sampleKey (some c9badFormat) = .invalidFormat ∧
    decryptCore sampleKey (some c9badLengths) = .invalidLengths ∧
    decryptCore sampleKey (some c9badTag) = .authFailed ∧
    (toJSONTransform sampleKey c9user).bio = none := by
  refine ⟨((c9_decrypt_failure_outcomes sampleKey c9badFormat c9user c9badFormat).1
      (by decide)).1,
    ((c9_decrypt_failure_outcomes sampleKey c9badLengths c9user c9badFormat).2.1
      ['a'] ['b'] ['c'] (by decide) (by decide)).1,
    ((c9_decrypt_failure_outcomes sampleKey c9badTag c9user c9badFormat).2.2.1
      (List.replicate 24 '0') ['a', 'b'] (List.replicate 32 '0')
      (by decide) (by decide) (by decide)).1,
    (c9_decrypt_failure_outcomes sampleKey c9badFormat c9user c9badFormat).2.2.2.2
      rfl (by decide) (by decide)⟩

/-! ## Claim C10 -/

/-- Concrete user with a pending reset challenge, for C10. -/
def c10user : User :=
  ⟨['u', '0'], none, ['n'], ['e'], ⟨1, ['p', 'w']⟩, none,
    ⟨some ⟨2, ['t', 'k']⟩, some 500⟩, .user⟩

/-- C10: code bug — GET /session serializes the raw document after
destructuring only `password` away, so the `passwordReset` challenge
(hashed token and expiry) remains present in the response for any user
with a pending reset, while the registration, login, profile-update and
admin-list paths strip both fields (`toJSONTransform` has no such
fields).  The claim that every serialized user has both fields removed is
wrong for this route. -/
theorem c10_session_leaks_passwordReset :
    (sessionUserData c10user).passwordReset = ⟨some ⟨2, ['t', 'k']⟩, some 500⟩ ∧
    (sessionUserData c10user).passwordReset.token ≠ none := by
  decide

end CprgSec
